import Mathlib

/-!
Verification of the pagecraft menu/footer resolution engine and the
content-sanitization utilities, as a shallow embedding of
`app/services/menu_service.py`, `app/models/page.py`,
`app/models/builder_menu.py`, `app/models/menu.py`, `app/models/footer.py`
and `app/utils/security.py`.

Modelling conventions:
* the SQLAlchemy database is a `Store` of record lists; `Model.query.get`
  is `find?` on the id, `filter_by(...).first()` is `find?` on the filter,
  and `ORDER BY x` is a stable sort (`List.insertionSort`) over the stored
  row order;
* Python `None` becomes `Option.none`; Python truthiness of an optional
  integer field (`if menu_id:`) is "some and nonzero", of an optional
  string is "some and nonempty";
* `json.loads` is `jsonParse`, a fuel-bounded recursive-descent parser for
  the JSON fragment without floats and `\u` escapes (the stored payloads
  the engine reads never need them); a parse failure models the
  `json.JSONDecodeError` raise;
* the unbounded `while` walks of `Page.get_effective_menu` /
  `get_effective_footer` take a fuel argument, `Option.none` meaning the
  fuel ran out (the walk did not finish within that many steps);
* a raised exception escaping `get_page_menus_and_footer` is the
  `Except.error` case of its result.
-/

/-! ### JSON values and a model of `json.loads` -/

inductive Json where
  | null : Json
  | bool : Bool → Json
  | num : Int → Json
  | str : String → Json
  | arr : List Json → Json
  | obj : List (String × Json) → Json

def jsonWs (c : Char) : Bool :=
  c == ' ' || c == '\t' || c == '\n' || c == '\r'

def skipWs : List Char → List Char
  | [] => []
  | c :: cs => if jsonWs c then skipWs cs else c :: cs

def litPrefix : List Char → List Char → Option (List Char)
  | [], cs => some cs
  | _ :: _, [] => none
  | p :: ps, c :: cs => if c == p then litPrefix ps cs else none

def parseStrChars : List Char → Option (List Char × List Char)
  | [] => none
  | c :: cs =>
    if c == '"' then some ([], cs)
    else if c == '\\' then
      match cs with
      | [] => none
      | e :: cs2 =>
        let ec : Option Char :=
          if e == '"' then some '"'
          else if e == '\\' then some '\\'
          else if e == '/' then some '/'
          else if e == 'n' then some '\n'
          else if e == 't' then some '\t'
          else if e == 'r' then some '\r'
          else none
        match ec with
        | none => none
        | some ch =>
          match parseStrChars cs2 with
          | some (s, r) => some (ch :: s, r)
          | none => none
    else
      match parseStrChars cs with
      | some (s, r) => some (c :: s, r)
      | none => none

def takeDigits : List Char → (List Char × List Char)
  | [] => ([], [])
  | c :: cs =>
    if c.isDigit then
      let (d, r) := takeDigits cs
      (c :: d, r)
    else ([], c :: cs)

def digitsToNat (acc : Nat) : List Char → Nat
  | [] => acc
  | c :: cs => digitsToNat (acc * 10 + (c.toNat - '0'.toNat)) cs

def parseNum (cs : List Char) : Option (Int × List Char) :=
  let signed : Bool × List Char :=
    match cs with
    | '-' :: r => (true, r)
    | _ => (false, cs)
  match takeDigits signed.2 with
  | ([], _) => none
  | (ds, r) =>
    let n : Int := Int.ofNat (digitsToNat 0 ds)
    some (if signed.1 then -n else n, r)

mutual

def parseVal : Nat → List Char → Option (Json × List Char)
  | 0, _ => none
  | fuel + 1, cs =>
    match skipWs cs with
    | [] => none
    | c :: rest =>
      if c == 'n' then
        match litPrefix "ull".toList rest with
        | some r => some (Json.null, r)
        | none => none
      else if c == 't' then
        match litPrefix "rue".toList rest with
        | some r => some (Json.bool true, r)
        | none => none
      else if c == 'f' then
        match litPrefix "alse".toList rest with
        | some r => some (Json.bool false, r)
        | none => none
      else if c == '"' then
        match parseStrChars rest with
        | some (s, r) => some (Json.str (String.mk s), r)
        | none => none
      else if c == '[' then
        match skipWs rest with
        | ']' :: r => some (Json.arr [], r)
        | r =>
          match parseArrItems fuel r with
          | some (xs, r2) => some (Json.arr xs, r2)
          | none => none
      else if c == '{' then
        match skipWs rest with
        | '}' :: r => some (Json.obj [], r)
        | r =>
          match parseObjItems fuel r with
          | some (xs, r2) => some (Json.obj xs, r2)
          | none => none
      else
        match parseNum (c :: rest) with
        | some (n, r) => some (Json.num n, r)
        | none => none

def parseArrItems : Nat → List Char → Option (List Json × List Char)
  | 0, _ => none
  | fuel + 1, cs =>
    match parseVal fuel cs with
    | none => none
    | some (v, r) =>
      match skipWs r with
      | ',' :: r2 =>
        match parseArrItems fuel r2 with
        | some (xs, r3) => some (v :: xs, r3)
        | none => none
      | ']' :: r2 => some ([v], r2)
      | _ => none

def parseObjItems : Nat → List Char → Option (List (String × Json) × List Char)
  | 0, _ => none
  | fuel + 1, cs =>
    match skipWs cs with
    | '"' :: r =>
      match parseStrChars r with
      | none => none
      | some (k, r1) =>
        match skipWs r1 with
        | ':' :: r2 =>
          match parseVal fuel r2 with
          | none => none
          | some (v, r3) =>
            match skipWs r3 with
            | ',' :: r4 =>
              match parseObjItems fuel r4 with
              | some (xs, r5) => some ((String.mk k, v) :: xs, r5)
              | none => none
            | '}' :: r4 => some ([(String.mk k, v)], r4)
            | _ => none
        | _ => none
    | _ => none

end

def jsonParse (s : String) : Option Json :=
  match parseVal (2 * s.length + 2) s.toList with
  | some (v, r) => if (skipWs r).isEmpty then some v else none
  | none => none

/-! ### Data model (`app/models/*.py`) -/

structure Site where
  id : Nat
  name : String
  domain : String
deriving DecidableEq

structure Page where
  id : Nat
  site_id : Nat
  parent_id : Option Nat
  title : String
  slug : String
  published : Bool
  is_homepage : Bool
  top_menu_id : Option Nat
  left_menu_id : Option Nat
  right_menu_id : Option Nat
  footer_id : Option Nat
deriving DecidableEq

structure Menu where
  id : Nat
  site_id : Nat
  name : String
  position : String
  is_active : Bool
  is_sticky : Bool
  content : Option String
  menu_styles : Option String
deriving DecidableEq

structure MenuItem where
  id : Nat
  menu_id : Nat
  label : String
  link_type : String
  page_id : Option Nat
  custom_url : Option String
  order : Int
deriving DecidableEq

structure Footer where
  id : Nat
  site_id : Nat
  name : String
  content : Option String
  is_active : Bool
  footer_styles : Option String
deriving DecidableEq

/-- `BuilderMenuMapping` rows: `role` is modelled as an integer (the
`int(role)` coercion of string-typed roles is not modelled). -/
structure BuilderMenuMapping where
  id : Nat
  site_id : Nat
  builder_name : Option String
  role : Option Int
  top_menu_id : Option Nat
  left_menu_id : Option Nat
  right_menu_id : Option Nat
  footer_id : Option Nat
deriving DecidableEq

/-- The database, as lists of rows in stored (insertion) order. -/
structure Store where
  pages : List Page
  menus : List Menu
  menu_items : List MenuItem
  footers : List Footer
  mappings : List BuilderMenuMapping
deriving DecidableEq

def Store.pageGet (s : Store) (pid : Nat) : Option Page :=
  s.pages.find? (fun p => p.id == pid)

def Store.menuGet (s : Store) (mid : Nat) : Option Menu :=
  s.menus.find? (fun m => m.id == mid)

def Store.footerGet (s : Store) (fid : Nat) : Option Footer :=
  s.footers.find? (fun f => f.id == fid)

inductive Position where
  | top
  | left
  | right
deriving DecidableEq

def Position.str : Position → String
  | .top => "top"
  | .left => "left"
  | .right => "right"

def Page.menuIdAt (p : Page) : Position → Option Nat
  | .top => p.top_menu_id
  | .left => p.left_menu_id
  | .right => p.right_menu_id

def BuilderMenuMapping.menuIdAt (m : BuilderMenuMapping) : Position → Option Nat
  | .top => m.top_menu_id
  | .left => m.left_menu_id
  | .right => m.right_menu_id

/-! ### `Page.get_effective_menu` / `Page.get_effective_footer`
(`app/models/page.py`) -/

/-- Result of the Python walk: a `Menu`/`Footer` object, the literal
integer `0` ("explicitly no menu"), or Python `None` (no page-specific
setting found, or a dangling id whose `query.get` returned `None`). -/
inductive EffResult (α : Type) where
  | found : α → EffResult α
  | zero : EffResult α
  | nothing : EffResult α
deriving DecidableEq

/-- The `while current:` ancestor walk at `position`; fuel-bounded, the
outer `none` meaning the loop did not finish within `fuel` iterations. -/
def Page.get_effective_menu (s : Store) (pos : Position) :
    Nat → Page → Option (EffResult Menu)
  | 0, _ => none
  | fuel + 1, current =>
    match current.menuIdAt pos with
    | some mid =>
      if mid = 0 then some .zero
      else
        match s.menuGet mid with
        | some m => some (.found m)
        | none => some .nothing
    | none =>
      match current.parent_id with
      | some pid =>
        if pid ≠ 0 then
          match s.pageGet pid with
          | some p => Page.get_effective_menu s pos fuel p
          | none => some .nothing
        else some .nothing
      | none => some .nothing

/-- The `while current:` ancestor walk for the footer; fuel-bounded. -/
def Page.get_effective_footer (s : Store) :
    Nat → Page → Option (EffResult Footer)
  | 0, _ => none
  | fuel + 1, current =>
    match current.footer_id with
    | some fid =>
      if fid = 0 then some .zero
      else
        match s.footerGet fid with
        | some f => some (.found f)
        | none => some .nothing
    | none =>
      match current.parent_id with
      | some pid =>
        if pid ≠ 0 then
          match s.pageGet pid with
          | some p => Page.get_effective_footer s fuel p
          | none => some .nothing
        else some .nothing
      | none => some .nothing

/-! ### `BuilderMenuMapping.get_for_user` (`app/models/builder_menu.py`) -/

/-- Python truthiness of an optional string (`if builder_name:`). -/
def strTruthy : Option String → Bool
  | some s => !s.isEmpty
  | none => false

/-- Python `str.lower()` (ASCII range; the data in play is ASCII). -/
def pyLower (s : String) : String :=
  String.mk (s.toList.map Char.toLower)

def BuilderMenuMapping.get_for_user (s : Store) (site_id : Nat)
    (builder_name : Option String) (role : Option Int) :
    Option BuilderMenuMapping :=
  let byBuilder : Option BuilderMenuMapping :=
    match builder_name with
    | some bn =>
      if !bn.isEmpty then
        s.mappings.find? (fun m =>
          m.site_id == site_id &&
          (match m.builder_name with
           | some x => pyLower x == pyLower bn
           | none => false))
      else none
    | none => none
  match byBuilder with
  | some m => some m
  | none =>
    match role with
    | some r => s.mappings.find? (fun m => m.site_id == site_id && m.role == some r)
    | none => none

/-! ### `MenuService.get_page_menus_and_footer`
(`app/services/menu_service.py`) -/

/-- `json.JSONDecodeError` escaping the service. -/
inductive JsonErr where
  | decodeError : JsonErr
deriving DecidableEq

/-- `MenuItem.query.filter_by(menu_id=...).order_by(MenuItem.order).all()`:
`ORDER BY` is modelled as a stable sort over the stored row order. -/
def Store.menuItemsFor (s : Store) (mid : Nat) : List MenuItem :=
  List.insertionSort (fun a b => a.order ≤ b.order)
    (s.menu_items.filter (fun it => it.menu_id == mid))

/-- `json.loads(x.content) if x.content else []` — the parse is NOT
wrapped in `try`, so a malformed payload raises. -/
def parseContentField : Option String → Except JsonErr Json
  | some str =>
    if str.isEmpty then .ok (Json.arr [])
    else
      match jsonParse str with
      | some j => .ok j
      | none => .error .decodeError
  | none => .ok (Json.arr [])

/-- `try: json.loads(x.styles) if x.styles else {} except ...: {}` — the
parse IS wrapped in `try`, so a malformed payload degrades to `{}`. -/
def parseStylesField : Option String → Json
  | some str =>
    if str.isEmpty then Json.obj []
    else
      match jsonParse str with
      | some j => j
      | none => Json.obj []
  | none => Json.obj []

/-- The per-position slice of the result dict
(`{pos}_menu`, `{pos}_menu_items`, `{pos}_menu_content`,
`{pos}_menu_styles`). -/
structure PosResult where
  menu : Option Menu
  items : List MenuItem
  content : Json
  styles : Json

/-- The initial value of the per-position slice of the result dict. -/
def PosResult.empty : PosResult :=
  ⟨none, [], Json.arr [], Json.obj []⟩

structure FooterResult where
  footer : Option Footer
  content : Json
  styles : Json

def FooterResult.empty : FooterResult :=
  ⟨none, Json.arr [], Json.obj []⟩

/-- The whole result dict of `get_page_menus_and_footer`. -/
structure Bundle where
  top : PosResult
  left : PosResult
  right : PosResult
  footer : FooterResult

def Bundle.atPos (b : Bundle) : Position → PosResult
  | .top => b.top
  | .left => b.left
  | .right => b.right

/-- The `if menu:` body of the position loop — items query, content parse
(may raise), style parse (swallowed). -/
def MenuService.materializeMenu (s : Store) (m : Menu) :
    Except JsonErr PosResult :=
  match parseContentField m.content with
  | .error e => .error e
  | .ok content => .ok ⟨some m, s.menuItemsFor m.id, content, parseStylesField m.menu_styles⟩

def MenuService.materializeFooter (s : Store) (f : Footer) :
    Except JsonErr FooterResult :=
  match parseContentField f.content with
  | .error e => .error e
  | .ok content => .ok ⟨some f, content, parseStylesField f.footer_styles⟩

/-- Priority 1 of the position loop: the viewer mapping's menu at `pos`
(`if menu_id: menu = Menu.query.get(menu_id)`). -/
def MenuService.viewerMenu (s : Store) (um : Option BuilderMenuMapping)
    (pos : Position) : Option Menu :=
  match um with
  | some m =>
    match m.menuIdAt pos with
    | some mid => if mid ≠ 0 then s.menuGet mid else none
    | none => none
  | none => none

/-- `if user_mapping and user_mapping.footer_id: Footer.query.get(...)`. -/
def MenuService.viewerFooter (s : Store) (um : Option BuilderMenuMapping) :
    Option Footer :=
  match um with
  | some m =>
    match m.footer_id with
    | some fid => if fid ≠ 0 then s.footerGet fid else none
    | none => none
  | none => none

/-- One iteration of the `for position in ['top', 'left', 'right']` loop. -/
def MenuService.resolvePosition (s : Store) (page : Page) (site : Site)
    (um : Option BuilderMenuMapping) (pos : Position) (fuel : Nat) :
    Option (Except JsonErr PosResult) :=
  match MenuService.viewerMenu s um pos with
  | some m => some (MenuService.materializeMenu s m)
  | none =>
    match Page.get_effective_menu s pos fuel page with
    | none => none
    | some .zero => some (.ok PosResult.empty)
    | some (.found m) => some (MenuService.materializeMenu s m)
    | some .nothing =>
      match s.menus.find? (fun m =>
          m.site_id == site.id && m.is_active && m.position == pos.str) with
      | some m => some (MenuService.materializeMenu s m)
      | none => some (.ok PosResult.empty)

/-- The footer half of `get_page_menus_and_footer`. -/
def MenuService.resolveFooter (s : Store) (page : Page) (site : Site)
    (um : Option BuilderMenuMapping) (fuel : Nat) :
    Option (Except JsonErr FooterResult) :=
  match MenuService.viewerFooter s um with
  | some f => some (MenuService.materializeFooter s f)
  | none =>
    match Page.get_effective_footer s fuel page with
    | none => none
    | some .zero => some (.ok FooterResult.empty)
    | some (.found f) => some (MenuService.materializeFooter s f)
    | some .nothing =>
      match s.footers.find? (fun f => f.site_id == site.id && f.is_active) with
      | some f => some (MenuService.materializeFooter s f)
      | none => some (.ok FooterResult.empty)

/-- `if builder_name or role is not None: user_mapping = ...get_for_user(...)`. -/
def MenuService.userMapping (s : Store) (site : Site)
    (builder_name : Option String) (role : Option Int) :
    Option BuilderMenuMapping :=
  if strTruthy builder_name || role.isSome then
    BuilderMenuMapping.get_for_user s site.id builder_name role
  else none

/-- `MenuService.get_page_menus_and_footer(page, site, builder_name, role)`:
outer `none` = one of the ancestor walks did not finish within `fuel`
steps; `Except.error` = a `json.loads` raise escaped. -/
def MenuService.get_page_menus_and_footer (s : Store) (page : Page)
    (site : Site) (builder_name : Option String) (role : Option Int)
    (fuel : Nat) : Option (Except JsonErr Bundle) :=
  let um : Option BuilderMenuMapping :=
    MenuService.userMapping s site builder_name role
  match MenuService.resolvePosition s page site um .top fuel with
  | none => none
  | some (.error e) => some (.error e)
  | some (.ok t) =>
    match MenuService.resolvePosition s page site um .left fuel with
    | none => none
    | some (.error e) => some (.error e)
    | some (.ok l) =>
      match MenuService.resolvePosition s page site um .right fuel with
      | none => none
      | some (.error e) => some (.error e)
      | some (.ok r) =>
        match MenuService.resolveFooter s page site um fuel with
        | none => none
        | some (.error e) => some (.error e)
        | some (.ok f) => some (.ok ⟨t, l, r, f⟩)

/-! ### Sanitization (`app/utils/security.py`) -/

def listIsPrefix : List Char → List Char → Bool
  | [], _ => true
  | _ :: _, [] => false
  | p :: ps, c :: cs => p == c && listIsPrefix ps cs

def listContainsSub (pat : List Char) : List Char → Bool
  | [] => pat.isEmpty
  | c :: cs => listIsPrefix pat (c :: cs) || listContainsSub pat cs

/-- Python's substring test `pat in s`. -/
def strContains (s pat : String) : Bool :=
  listContainsSub pat.toList s.toList

def ALLOWED_TAGS : List String :=
  ["p", "br", "b", "i", "u", "strong", "em", "ul", "ol", "li", "a",
   "h1", "h2", "h3", "h4", "h5", "h6", "blockquote", "code", "pre",
   "span", "div", "table", "thead", "tbody", "tr", "th", "td"]

def SAFE_CSS_PROPERTIES : List String :=
  ["color", "backgroundColor", "textAlign", "textDecoration",
   "fontWeight", "fontStyle", "fontSize", "fontFamily",
   "padding", "margin", "border", "borderTop", "borderRight",
   "borderBottom", "borderLeft", "borderRadius", "borderColor",
   "width", "height", "maxWidth", "maxHeight", "minWidth", "minHeight",
   "display", "alignItems", "justifyContent", "flexDirection",
   "backgroundImage", "backgroundSize", "backgroundPosition", "backgroundRepeat",
   "boxShadow", "opacity", "lineHeight", "letterSpacing", "textTransform",
   "custom"]

/-- The sequence of value checks in `sanitize_css_properties` whose
`continue` drops the entry (in source order). -/
def cssValueBlocked (key value : String) : Bool :=
  let vl := pyLower value
  strContains vl "javascript:" ||
  strContains vl "expression" ||
  ((key == "backgroundImage" || key == "background") &&
    strContains vl "data:" && strContains vl "data:image/svg") ||
  strContains vl "@import" || strContains value "@" ||
  pyLower key == "behavior" ||
  strContains vl "</style" || strContains vl "<script"

/-- `sanitize_css_properties(styles)`: the dict is an association list in
insertion order; a value that is not a string (`isinstance(value, str)`)
is dropped, hence the `Json`-valued input. -/
def sanitize_css_properties (styles : List (String × Json)) :
    List (String × String) :=
  styles.filterMap (fun kv =>
    if SAFE_CSS_PROPERTIES.contains kv.1 then
      match kv.2 with
      | Json.str v => if cssValueBlocked kv.1 v then none else some (kv.1, v)
      | _ => none
    else none)

/-- Longest leading run of ASCII tag-name characters. -/
def readTagName : List Char → (List Char × List Char)
  | [] => ([], [])
  | c :: cs =>
    if c.isAlpha || c.isDigit then
      let (n, r) := readTagName cs
      (c :: n, r)
    else ([], c :: cs)

def dropToGt : List Char → Option (List Char)
  | [] => none
  | c :: cs => if c == '>' then some cs else dropToGt cs

/-- Modelled from the spec: `bleach.clean(..., tags=ALLOWED_TAGS,
attributes=ALLOWED_ATTRIBUTES, strip=True)` is third-party code absent
from the repository.  Per the spec's sanitization contract it "strips any
markup outside an explicit allow-list of tags/attributes": tags whose
name is allow-listed are kept, all other tags are removed, and character
data (including the raw text inside a removed element) is retained.
Attribute handling and malformed markup recovery are not modelled. -/
def bleachClean : Nat → List Char → List Char
  | 0, _ => []
  | _ + 1, [] => []
  | fuel + 1, c :: cs =>
    if c == '<' then
      let body : Bool × List Char :=
        match cs with
        | '/' :: r => (true, r)
        | _ => (false, cs)
      match readTagName body.2 with
      | ([], _) => c :: bleachClean fuel cs
      | (nm, rest) =>
        match dropToGt rest with
        | none => c :: bleachClean fuel cs
        | some afterGt =>
          if ALLOWED_TAGS.contains (pyLower (String.mk nm)) then
            ('<' :: (if body.1 then ['/'] else []) ++ nm ++ ['>']) ++
              bleachClean fuel afterGt
          else
            bleachClean fuel afterGt
    else c :: bleachClean fuel cs

/-- Case-insensitive match of the lowercase pattern `pat` at the head. -/
def ciPrefix : List Char → List Char → Option (List Char)
  | [], cs => some cs
  | _ :: _, [] => none
  | p :: ps, c :: cs => if c.toLower == p then ciPrefix ps cs else none

/-- `re.sub(pat, left-to-right, '' , flags=re.IGNORECASE)` for a literal
lowercase pattern. -/
def removeCI (pat : List Char) : Nat → List Char → List Char
  | 0, _ => []
  | _ + 1, [] => []
  | fuel + 1, c :: cs =>
    match ciPrefix pat (c :: cs) with
    | some rest => removeCI pat fuel rest
    | none => c :: removeCI pat fuel cs

/-- `sanitize_html_content(html_content)`: empty-in empty-out, bleach
clean, then removal of residual `javascript:` substrings. -/
def sanitize_html_content (html_content : String) : String :=
  if html_content.isEmpty then ""
  else
    let cleaned := bleachClean (html_content.length + 1) html_content.toList
    String.mk (removeCI "javascript:".toList (cleaned.length + 1) cleaned)

/-! ### Acyclic parent chains -/

/-- The exact sequence of pages the `while current:` loop visits when the
parent chain is well formed: it ends at a page whose `parent_id` is
falsy (`None` or `0`) or points at a missing row. -/
inductive AncestorChain (s : Store) : Page → List Page → Prop where
  | stopNone (p : Page) : p.parent_id = none → AncestorChain s p [p]
  | stopZero (p : Page) : p.parent_id = some 0 → AncestorChain s p [p]
  | stopMissing (p : Page) (pid : Nat) : p.parent_id = some pid → pid ≠ 0 →
      s.pageGet pid = none → AncestorChain s p [p]
  | step (p q : Page) (pid : Nat) (ch : List Page) : p.parent_id = some pid →
      pid ≠ 0 → s.pageGet pid = some q → AncestorChain s q ch →
      AncestorChain s p (p :: ch)

/-! ### State-threaded reads

Every store access of the resolution path, with the store threaded
through explicitly; each primitive is a `SELECT` and hands the store back
unchanged, so that "resolution performs no writes" is a statement about
the composition. -/

def Store.pageGetSt (s : Store) (pid : Nat) : Option Page × Store :=
  (s.pageGet pid, s)

def Store.menuGetSt (s : Store) (mid : Nat) : Option Menu × Store :=
  (s.menuGet mid, s)

def Store.footerGetSt (s : Store) (fid : Nat) : Option Footer × Store :=
  (s.footerGet fid, s)

def Store.menusFindSt (s : Store) (f : Menu → Bool) : Option Menu × Store :=
  (s.menus.find? f, s)

def Store.footersFindSt (s : Store) (f : Footer → Bool) :
    Option Footer × Store :=
  (s.footers.find? f, s)

def Store.mappingsFindSt (s : Store) (f : BuilderMenuMapping → Bool) :
    Option BuilderMenuMapping × Store :=
  (s.mappings.find? f, s)

def Store.menuItemsQuerySt (s : Store) (mid : Nat) :
    List MenuItem × Store :=
  (s.menuItemsFor mid, s)

def Page.get_effective_menuSt (pos : Position) :
    Nat → Page → Store → Option (EffResult Menu) × Store
  | 0, _, s => (none, s)
  | fuel + 1, current, s =>
    match current.menuIdAt pos with
    | some mid =>
      if mid = 0 then (some .zero, s)
      else
        match s.menuGetSt mid with
        | (some m, s1) => (some (.found m), s1)
        | (none, s1) => (some .nothing, s1)
    | none =>
      match current.parent_id with
      | some pid =>
        if pid ≠ 0 then
          match s.pageGetSt pid with
          | (some p, s1) => Page.get_effective_menuSt pos fuel p s1
          | (none, s1) => (some .nothing, s1)
        else (some .nothing, s)
      | none => (some .nothing, s)

def Page.get_effective_footerSt :
    Nat → Page → Store → Option (EffResult Footer) × Store
  | 0, _, s => (none, s)
  | fuel + 1, current, s =>
    match current.footer_id with
    | some fid =>
      if fid = 0 then (some .zero, s)
      else
        match s.footerGetSt fid with
        | (some f, s1) => (some (.found f), s1)
        | (none, s1) => (some .nothing, s1)
    | none =>
      match current.parent_id with
      | some pid =>
        if pid ≠ 0 then
          match s.pageGetSt pid with
          | (some p, s1) => Page.get_effective_footerSt fuel p s1
          | (none, s1) => (some .nothing, s1)
        else (some .nothing, s)
      | none => (some .nothing, s)

def BuilderMenuMapping.get_for_userSt (site_id : Nat)
    (builder_name : Option String) (role : Option Int) (s : Store) :
    Option BuilderMenuMapping × Store :=
  let byBuilder : Option BuilderMenuMapping × Store :=
    match builder_name with
    | some bn =>
      if !bn.isEmpty then
        s.mappingsFindSt (fun m =>
          m.site_id == site_id &&
          (match m.builder_name with
           | some x => pyLower x == pyLower bn
           | none => false))
      else (none, s)
    | none => (none, s)
  match byBuilder with
  | (some m, s1) => (some m, s1)
  | (none, s1) =>
    match role with
    | some r =>
      s1.mappingsFindSt (fun m => m.site_id == site_id && m.role == some r)
    | none => (none, s1)

def MenuService.userMappingSt (site : Site) (builder_name : Option String)
    (role : Option Int) (s : Store) : Option BuilderMenuMapping × Store :=
  if strTruthy builder_name || role.isSome then
    BuilderMenuMapping.get_for_userSt site.id builder_name role s
  else (none, s)

def MenuService.materializeMenuSt (m : Menu) (s : Store) :
    Except JsonErr PosResult × Store :=
  match s.menuItemsQuerySt m.id with
  | (items, s1) =>
    match parseContentField m.content with
    | .error e => (.error e, s1)
    | .ok content =>
      (.ok ⟨some m, items, content, parseStylesField m.menu_styles⟩, s1)

def MenuService.materializeFooterSt (f : Footer) (s : Store) :
    Except JsonErr FooterResult × Store :=
  match parseContentField f.content with
  | .error e => (.error e, s)
  | .ok content => (.ok ⟨some f, content, parseStylesField f.footer_styles⟩, s)

def MenuService.viewerMenuSt (um : Option BuilderMenuMapping)
    (pos : Position) (s : Store) : Option Menu × Store :=
  match um with
  | some m =>
    match m.menuIdAt pos with
    | some mid => if mid ≠ 0 then s.menuGetSt mid else (none, s)
    | none => (none, s)
  | none => (none, s)

def MenuService.viewerFooterSt (um : Option BuilderMenuMapping) (s : Store) :
    Option Footer × Store :=
  match um with
  | some m =>
    match m.footer_id with
    | some fid => if fid ≠ 0 then s.footerGetSt fid else (none, s)
    | none => (none, s)
  | none => (none, s)

def MenuService.resolvePositionSt (page : Page) (site : Site)
    (um : Option BuilderMenuMapping) (pos : Position) (fuel : Nat)
    (s : Store) : Option (Except JsonErr PosResult) × Store :=
  match MenuService.viewerMenuSt um pos s with
  | (some m, s1) =>
    match MenuService.materializeMenuSt m s1 with
    | (r, s2) => (some r, s2)
  | (none, s1) =>
    match Page.get_effective_menuSt pos fuel page s1 with
    | (none, s2) => (none, s2)
    | (some .zero, s2) => (some (.ok PosResult.empty), s2)
    | (some (.found m), s2) =>
      match MenuService.materializeMenuSt m s2 with
      | (r, s3) => (some r, s3)
    | (some .nothing, s2) =>
      match s2.menusFindSt (fun m =>
          m.site_id == site.id && m.is_active && m.position == pos.str) with
      | (some m, s3) =>
        match MenuService.materializeMenuSt m s3 with
        | (r, s4) => (some r, s4)
      | (none, s3) => (some (.ok PosResult.empty), s3)

def MenuService.resolveFooterSt (page : Page) (site : Site)
    (um : Option BuilderMenuMapping) (fuel : Nat) (s : Store) :
    Option (Except JsonErr FooterResult) × Store :=
  match MenuService.viewerFooterSt um s with
  | (some f, s1) =>
    match MenuService.materializeFooterSt f s1 with
    | (r, s2) => (some r, s2)
  | (none, s1) =>
    match Page.get_effective_footerSt fuel page s1 with
    | (none, s2) => (none, s2)
    | (some .zero, s2) => (some (.ok FooterResult.empty), s2)
    | (some (.found f), s2) =>
      match MenuService.materializeFooterSt f s2 with
      | (r, s3) => (some r, s3)
    | (some .nothing, s2) =>
      match s2.footersFindSt (fun f => f.site_id == site.id && f.is_active) with
      | (some f, s3) =>
        match MenuService.materializeFooterSt f s3 with
        | (r, s4) => (some r, s4)
      | (none, s3) => (some (.ok FooterResult.empty), s3)

def MenuService.get_page_menus_and_footerSt (page : Page) (site : Site)
    (builder_name : Option String) (role : Option Int) (fuel : Nat)
    (s : Store) : Option (Except JsonErr Bundle) × Store :=
  match MenuService.userMappingSt site builder_name role s with
  | (um, s0) =>
    match MenuService.resolvePositionSt page site um .top fuel s0 with
    | (none, s1) => (none, s1)
    | (some (.error e), s1) => (some (.error e), s1)
    | (some (.ok t), s1) =>
      match MenuService.resolvePositionSt page site um .left fuel s1 with
      | (none, s2) => (none, s2)
      | (some (.error e), s2) => (some (.error e), s2)
      | (some (.ok l), s2) =>
        match MenuService.resolvePositionSt page site um .right fuel s2 with
        | (none, s3) => (none, s3)
        | (some (.error e), s3) => (some (.error e), s3)
        | (some (.ok r), s3) =>
          match MenuService.resolveFooterSt page site um fuel s3 with
          | (none, s4) => (none, s4)
          | (some (.error e), s4) => (some (.error e), s4)
          | (some (.ok f), s4) => (some (.ok ⟨t, l, r, f⟩), s4)

/-! ### Concrete fixtures for witnesses and counterexamples
(one family per claim; `cN...` belongs to claim N only) -/

def c1Site : Site := ⟨1, "site", "example.com"⟩
def c1Parent : Page :=
  ⟨2, 1, none, "parent", "parent", true, false, some 0, none, none, none⟩
def c1Child : Page :=
  ⟨3, 1, some 2, "child", "child", true, false, none, none, none, none⟩
def c1Menu : Menu := ⟨10, 1, "main", "top", true, false, none, none⟩
def c1Store : Store := ⟨[c1Parent, c1Child], [c1Menu], [], [], []⟩

def c2Site : Site := ⟨1, "site", "example.com"⟩
def c2Page : Page :=
  ⟨1, 1, none, "home", "home", true, true, none, none, none, none⟩
def c2BadMenu : Menu := ⟨10, 1, "main", "top", true, false, some "oops", none⟩
def c2Store : Store := ⟨[c2Page], [c2BadMenu], [], [], []⟩
def c2StyleMenu : Menu := ⟨11, 1, "m", "top", true, false, none, some "oops"⟩
def c2StyleFooter : Footer := ⟨12, 1, "f", none, true, some "oops"⟩

def c3Site : Site := ⟨1, "site", "example.com"⟩
def c3Page : Page :=
  ⟨1, 1, none, "home", "home", true, true, some 10, none, none, some 40⟩
def c3MenuPage : Menu := ⟨10, 1, "pagemenu", "top", true, false, none, none⟩
def c3MenuA : Menu := ⟨20, 1, "buildermenu", "top", false, false, none, none⟩
def c3MenuB : Menu := ⟨30, 1, "rolemenu", "top", false, false, none, none⟩
def c3FooterPage : Footer := ⟨40, 1, "pagefooter", none, true, none⟩
def c3RowA : BuilderMenuMapping :=
  ⟨1, 1, some "NVR INC", none, some 20, none, none, none⟩
def c3RowB : BuilderMenuMapping :=
  ⟨2, 1, none, some 3, some 30, some 30, none, some 41⟩
def c3Store : Store :=
  ⟨[c3Page], [c3MenuPage, c3MenuA, c3MenuB], [],
   [c3FooterPage, ⟨41, 1, "rolefooter", none, true, none⟩],
   [c3RowA, c3RowB]⟩

def c4Site : Site := ⟨1, "site", "example.com"⟩
def c4Root : Page :=
  ⟨1, 1, none, "root", "root", true, true, none, none, none, none⟩
def c4Leaf : Page :=
  ⟨2, 1, some 1, "leaf", "leaf", true, false, none, none, none, none⟩
def c4Menu : Menu := ⟨10, 1, "default", "top", true, false, none, none⟩
def c4Store : Store := ⟨[c4Root, c4Leaf], [c4Menu], [], [], []⟩

def c5Items : List MenuItem :=
  [⟨1, 10, "a", "page", none, none, 2⟩,
   ⟨2, 10, "b", "page", none, none, 1⟩,
   ⟨3, 10, "c", "page", none, none, 1⟩,
   ⟨4, 11, "other", "page", none, none, 0⟩]
def c5Store : Store := ⟨[], [], c5Items, [], []⟩

def c8Root : Page :=
  ⟨1, 1, none, "root", "root", true, true, none, none, none, none⟩
def c8Mid : Page :=
  ⟨2, 1, some 1, "mid", "mid", true, false, none, none, none, none⟩
def c8Loop : Page :=
  ⟨7, 1, some 7, "loop", "loop", true, false, none, none, none, none⟩
def c8Store : Store := ⟨[c8Root, c8Mid, c8Loop], [], [], [], []⟩

/-! ### The state-threaded engine agrees with the pure one and never
writes -/

theorem get_effective_menuSt_eq (pos : Position) :
    ∀ (fuel : Nat) (p : Page) (s : Store),
    Page.get_effective_menuSt pos fuel p s =
      (Page.get_effective_menu s pos fuel p, s) := by
  intro fuel
  induction fuel with
  | zero => intro p s; rfl
  | succ n ih =>
    intro p s
    simp only [Page.get_effective_menuSt, Page.get_effective_menu,
      Store.menuGetSt, Store.pageGetSt]
    cases hm : p.menuIdAt pos with
    | some mid =>
      by_cases h0 : mid = 0
      · simp [h0]
      · simp only [h0, if_neg h0, ite_false]
        cases hg : s.menuGet mid <;> simp
    | none =>
      cases hp : p.parent_id with
      | none => simp
      | some pid =>
        by_cases h0 : pid = 0
        · simp [h0]
        · simp only [h0, ne_eq, not_false_eq_true, if_true, ite_true]
          cases hg : s.pageGet pid with
          | none => simp
          | some q => simp [ih]

theorem get_effective_footerSt_eq :
    ∀ (fuel : Nat) (p : Page) (s : Store),
    Page.get_effective_footerSt fuel p s =
      (Page.get_effective_footer s fuel p, s) := by
  intro fuel
  induction fuel with
  | zero => intro p s; rfl
  | succ n ih =>
    intro p s
    simp only [Page.get_effective_footerSt, Page.get_effective_footer,
      Store.footerGetSt, Store.pageGetSt]
    cases hm : p.footer_id with
    | some fid =>
      by_cases h0 : fid = 0
      · simp [h0]
      · simp only [h0, if_neg h0, ite_false]
        cases hg : s.footerGet fid <;> simp
    | none =>
      cases hp : p.parent_id with
      | none => simp
      | some pid =>
        by_cases h0 : pid = 0
        · simp [h0]
        · simp only [h0, ne_eq, not_false_eq_true, if_true, ite_true]
          cases hg : s.pageGet pid with
          | none => simp
          | some q => simp [ih]

theorem get_for_userSt_eq (site_id : Nat) (bn : Option String)
    (role : Option Int) (s : Store) :
    BuilderMenuMapping.get_for_userSt site_id bn role s =
      (BuilderMenuMapping.get_for_user s site_id bn role, s) := by
  simp only [BuilderMenuMapping.get_for_userSt, BuilderMenuMapping.get_for_user,
    Store.mappingsFindSt]
  cases bn with
  | none =>
    cases role with
    | none => rfl
    | some r => rfl
  | some b =>
    by_cases hb : b.isEmpty
    · simp only [hb, Bool.not_true, Bool.false_eq_true, if_false, ite_false]
      cases role with
      | none => rfl
      | some r => rfl
    · simp only [hb, Bool.not_false, if_true, ite_true]
      cases hf : s.mappings.find? (fun m =>
          m.site_id == site_id &&
          (match m.builder_name with
           | some x => pyLower x == pyLower b
           | none => false)) with
      | some mp => simp
      | none =>
        cases role with
        | none => simp
        | some r => simp

theorem userMappingSt_eq (site : Site) (bn : Option String)
    (role : Option Int) (s : Store) :
    MenuService.userMappingSt site bn role s =
      (MenuService.userMapping s site bn role, s) := by
  simp only [MenuService.userMappingSt, MenuService.userMapping]
  by_cases h : strTruthy bn || role.isSome
  · simp [h, get_for_userSt_eq]
  · simp [h]

theorem materializeMenuSt_eq (m : Menu) (s : Store) :
    MenuService.materializeMenuSt m s = (MenuService.materializeMenu s m, s) := by
  simp only [MenuService.materializeMenuSt, MenuService.materializeMenu,
    Store.menuItemsQuerySt]
  cases h : parseContentField m.content <;> simp

theorem materializeFooterSt_eq (f : Footer) (s : Store) :
    MenuService.materializeFooterSt f s =
      (MenuService.materializeFooter s f, s) := by
  simp only [MenuService.materializeFooterSt, MenuService.materializeFooter]
  cases h : parseContentField f.content <;> simp

theorem viewerMenuSt_eq (um : Option BuilderMenuMapping) (pos : Position)
    (s : Store) :
    MenuService.viewerMenuSt um pos s = (MenuService.viewerMenu s um pos, s) := by
  simp only [MenuService.viewerMenuSt, MenuService.viewerMenu, Store.menuGetSt]
  cases um with
  | none => rfl
  | some mp =>
    cases hm : mp.menuIdAt pos with
    | none => simp [hm]
    | some mid =>
      by_cases h0 : mid = 0
      · simp [hm, h0]
      · simp [hm, h0]

theorem viewerFooterSt_eq (um : Option BuilderMenuMapping) (s : Store) :
    MenuService.viewerFooterSt um s = (MenuService.viewerFooter s um, s) := by
  simp only [MenuService.viewerFooterSt, MenuService.viewerFooter,
    Store.footerGetSt]
  cases um with
  | none => rfl
  | some mp =>
    cases hm : mp.footer_id with
    | none => simp [hm]
    | some fid =>
      by_cases h0 : fid = 0
      · simp [hm, h0]
      · simp [hm, h0]

theorem resolvePositionSt_eq (page : Page) (site : Site)
    (um : Option BuilderMenuMapping) (pos : Position) (fuel : Nat)
    (s : Store) :
    MenuService.resolvePositionSt page site um pos fuel s =
      (MenuService.resolvePosition s page site um pos fuel, s) := by
  simp only [MenuService.resolvePositionSt, MenuService.resolvePosition,
    viewerMenuSt_eq, get_effective_menuSt_eq, materializeMenuSt_eq,
    Store.menusFindSt]
  cases hv : MenuService.viewerMenu s um pos with
  | some m => simp [hv]
  | none =>
    cases hw : Page.get_effective_menu s pos fuel page with
    | none => simp [hv, hw]
    | some er =>
      cases er with
      | zero => simp [hv, hw]
      | found m => simp [hv, hw, materializeMenuSt_eq]
      | nothing =>
        cases hf : s.menus.find? (fun m =>
            m.site_id == site.id && m.is_active && m.position == pos.str) with
        | some m => simp [hv, hw, hf, materializeMenuSt_eq]
        | none => simp [hv, hw, hf]

theorem resolveFooterSt_eq (page : Page) (site : Site)
    (um : Option BuilderMenuMapping) (fuel : Nat) (s : Store) :
    MenuService.resolveFooterSt page site um fuel s =
      (MenuService.resolveFooter s page site um fuel, s) := by
  simp only [MenuService.resolveFooterSt, MenuService.resolveFooter,
    viewerFooterSt_eq, get_effective_footerSt_eq, materializeFooterSt_eq,
    Store.footersFindSt]
  cases hv : MenuService.viewerFooter s um with
  | some f => simp [hv]
  | none =>
    cases hw : Page.get_effective_footer s fuel page with
    | none => simp [hv, hw]
    | some er =>
      cases er with
      | zero => simp [hv, hw]
      | found f => simp [hv, hw, materializeFooterSt_eq]
      | nothing =>
        cases hf : s.footers.find? (fun f => f.site_id == site.id && f.is_active) with
        | some f => simp [hv, hw, hf, materializeFooterSt_eq]
        | none => simp [hv, hw, hf]

theorem get_page_menus_and_footerSt_eq (page : Page) (site : Site)
    (bn : Option String) (role : Option Int) (fuel : Nat) (s : Store) :
    MenuService.get_page_menus_and_footerSt page site bn role fuel s =
      (MenuService.get_page_menus_and_footer s page site bn role fuel, s) := by
  simp only [MenuService.get_page_menus_and_footerSt,
    MenuService.get_page_menus_and_footer, userMappingSt_eq,
    resolvePositionSt_eq, resolveFooterSt_eq]
  cases h1 : MenuService.resolvePosition s page site
      (MenuService.userMapping s site bn role) .top fuel with
  | none => simp [h1]
  | some e1 =>
    cases e1 with
    | error e => simp [h1]
    | ok t =>
      cases h2 : MenuService.resolvePosition s page site
          (MenuService.userMapping s site bn role) .left fuel with
      | none => simp [h1, h2]
      | some e2 =>
        cases e2 with
        | error e => simp [h1, h2]
        | ok l =>
          cases h3 : MenuService.resolvePosition s page site
              (MenuService.userMapping s site bn role) .right fuel with
          | none => simp [h1, h2, h3]
          | some e3 =>
            cases e3 with
            | error e => simp [h1, h2, h3]
            | ok r =>
              cases h4 : MenuService.resolveFooter s page site
                  (MenuService.userMapping s site bn role) fuel with
              | none => simp [h1, h2, h3, h4]
              | some e4 =>
                cases e4 with
                | error e => simp [h1, h2, h3, h4]
                | ok f => simp [h1, h2, h3, h4]

/-! ### Engine lemmas -/

theorem resolve_ok_pos (s : Store) (page : Page) (site : Site)
    (bn : Option String) (role : Option Int) (fuel : Nat) (b : Bundle)
    (h : MenuService.get_page_menus_and_footer s page site bn role fuel =
      some (.ok b)) (pos : Position) :
    MenuService.resolvePosition s page site
      (MenuService.userMapping s site bn role) pos fuel =
      some (.ok (b.atPos pos)) := by
  simp only [MenuService.get_page_menus_and_footer] at h
  cases h1 : MenuService.resolvePosition s page site
      (MenuService.userMapping s site bn role) .top fuel with
  | none => simp [h1] at h
  | some e1 =>
    cases e1 with
    | error e => simp [h1] at h
    | ok t =>
      cases h2 : MenuService.resolvePosition s page site
          (MenuService.userMapping s site bn role) .left fuel with
      | none => simp [h1, h2] at h
      | some e2 =>
        cases e2 with
        | error e => simp [h1, h2] at h
        | ok l =>
          cases h3 : MenuService.resolvePosition s page site
              (MenuService.userMapping s site bn role) .right fuel with
          | none => simp [h1, h2, h3] at h
          | some e3 =>
            cases e3 with
            | error e => simp [h1, h2, h3] at h
            | ok r =>
              cases h4 : MenuService.resolveFooter s page site
                  (MenuService.userMapping s site bn role) fuel with
              | none => simp [h1, h2, h3, h4] at h
              | some e4 =>
                cases e4 with
                | error e => simp [h1, h2, h3, h4] at h
                | ok f =>
                  simp only [h1, h2, h3, h4, Option.some.injEq,
                    Except.ok.injEq] at h
                  subst h
                  cases pos <;> simpa [Bundle.atPos] using ‹_›

theorem resolve_ok_footer (s : Store) (page : Page) (site : Site)
    (bn : Option String) (role : Option Int) (fuel : Nat) (b : Bundle)
    (h : MenuService.get_page_menus_and_footer s page site bn role fuel =
      some (.ok b)) :
    MenuService.resolveFooter s page site
      (MenuService.userMapping s site bn role) fuel = some (.ok b.footer) := by
  simp only [MenuService.get_page_menus_and_footer] at h
  cases h1 : MenuService.resolvePosition s page site
      (MenuService.userMapping s site bn role) .top fuel with
  | none => simp [h1] at h
  | some e1 =>
    cases e1 with
    | error e => simp [h1] at h
    | ok t =>
      cases h2 : MenuService.resolvePosition s page site
          (MenuService.userMapping s site bn role) .left fuel with
      | none => simp [h1, h2] at h
      | some e2 =>
        cases e2 with
        | error e => simp [h1, h2] at h
        | ok l =>
          cases h3 : MenuService.resolvePosition s page site
              (MenuService.userMapping s site bn role) .right fuel with
          | none => simp [h1, h2, h3] at h
          | some e3 =>
            cases e3 with
            | error e => simp [h1, h2, h3] at h
            | ok r =>
              cases h4 : MenuService.resolveFooter s page site
                  (MenuService.userMapping s site bn role) fuel with
              | none => simp [h1, h2, h3, h4] at h
              | some e4 =>
                cases e4 with
                | error e => simp [h1, h2, h3, h4] at h
                | ok f =>
                  simp only [h1, h2, h3, h4, Option.some.injEq,
                    Except.ok.injEq] at h
                  subst h
                  simpa using h4

theorem materializeMenu_ok_menu (s : Store) (m : Menu) (p : PosResult)
    (h : MenuService.materializeMenu s m = .ok p) :
    p.menu = some m ∧ p.items = s.menuItemsFor m.id ∧
    p.styles = parseStylesField m.menu_styles := by
  simp only [MenuService.materializeMenu] at h
  cases hc : parseContentField m.content with
  | error e => rw [hc] at h; exact absurd h (by simp)
  | ok content => rw [hc] at h; cases h; exact ⟨rfl, rfl, rfl⟩

theorem materializeFooter_ok_footer (s : Store) (f : Footer)
    (p : FooterResult) (h : MenuService.materializeFooter s f = .ok p) :
    p.footer = some f ∧ p.styles = parseStylesField f.footer_styles := by
  simp only [MenuService.materializeFooter] at h
  cases hc : parseContentField f.content with
  | error e => rw [hc] at h; exact absurd h (by simp)
  | ok content => rw [hc] at h; cases h; exact ⟨rfl, rfl⟩

/-- One extra step of the menu walk through a child with no own setting. -/
theorem get_effective_menu_child_step (s : Store) (pos : Position)
    (c p : Page) (fuel : Nat) {r' : Option (EffResult Menu)}
    (hc : c.menuIdAt pos = none) (hp : c.parent_id = some p.id)
    (h0 : p.id ≠ 0) (hg : s.pageGet p.id = some p)
    (hr : Page.get_effective_menu s pos fuel p = r') :
    Page.get_effective_menu s pos (fuel + 1) c = r' := by
  simp [Page.get_effective_menu, hc, hp, h0, hg, hr]

/-! ### Walk lemmas over acyclic chains -/

theorem get_effective_menu_terminates (s : Store) (pos : Position) :
    ∀ {p : Page} {ch : List Page}, AncestorChain s p ch →
    ∀ fuel, ch.length ≤ fuel →
    ∃ r, Page.get_effective_menu s pos fuel p = some r := by
  intro p ch hch
  induction hch with
  | stopNone q hq =>
    intro fuel hf
    obtain ⟨n, rfl⟩ : ∃ n, fuel = n + 1 := ⟨fuel - 1, by simp at hf; omega⟩
    cases hm : q.menuIdAt pos with
    | some mid =>
      by_cases h0 : mid = 0
      · exact ⟨.zero, by simp [Page.get_effective_menu, hm, h0]⟩
      · cases hg : s.menuGet mid with
        | some m =>
          exact ⟨.found m, by simp [Page.get_effective_menu, hm, h0, hg]⟩
        | none => exact ⟨.nothing, by simp [Page.get_effective_menu, hm, h0, hg]⟩
    | none => exact ⟨.nothing, by simp [Page.get_effective_menu, hm, hq]⟩
  | stopZero q hq =>
    intro fuel hf
    obtain ⟨n, rfl⟩ : ∃ n, fuel = n + 1 := ⟨fuel - 1, by simp at hf; omega⟩
    cases hm : q.menuIdAt pos with
    | some mid =>
      by_cases h0 : mid = 0
      · exact ⟨.zero, by simp [Page.get_effective_menu, hm, h0]⟩
      · cases hg : s.menuGet mid with
        | some m =>
          exact ⟨.found m, by simp [Page.get_effective_menu, hm, h0, hg]⟩
        | none => exact ⟨.nothing, by simp [Page.get_effective_menu, hm, h0, hg]⟩
    | none => exact ⟨.nothing, by simp [Page.get_effective_menu, hm, hq]⟩
  | stopMissing q pid hq hpid hg2 =>
    intro fuel hf
    obtain ⟨n, rfl⟩ : ∃ n, fuel = n + 1 := ⟨fuel - 1, by simp at hf; omega⟩
    cases hm : q.menuIdAt pos with
    | some mid =>
      by_cases h0 : mid = 0
      · exact ⟨.zero, by simp [Page.get_effective_menu, hm, h0]⟩
      · cases hg : s.menuGet mid with
        | some m =>
          exact ⟨.found m, by simp [Page.get_effective_menu, hm, h0, hg]⟩
        | none => exact ⟨.nothing, by simp [Page.get_effective_menu, hm, h0, hg]⟩
    | none =>
      exact ⟨.nothing, by simp [Page.get_effective_menu, hm, hq, hpid, hg2]⟩
  | step q q2 pid ch hq hpid hg2 hch2 ih =>
    intro fuel hf
    obtain ⟨n, rfl⟩ : ∃ n, fuel = n + 1 := ⟨fuel - 1, by simp at hf; omega⟩
    cases hm : q.menuIdAt pos with
    | some mid =>
      by_cases h0 : mid = 0
      · exact ⟨.zero, by simp [Page.get_effective_menu, hm, h0]⟩
      · cases hg : s.menuGet mid with
        | some m =>
          exact ⟨.found m, by simp [Page.get_effective_menu, hm, h0, hg]⟩
        | none => exact ⟨.nothing, by simp [Page.get_effective_menu, hm, h0, hg]⟩
    | none =>
      obtain ⟨r, hr⟩ := ih n (by simp at hf; omega)
      exact ⟨r, by simp [Page.get_effective_menu, hm, hq, hpid, hg2, hr]⟩

theorem get_effective_footer_terminates (s : Store) :
    ∀ {p : Page} {ch : List Page}, AncestorChain s p ch →
    ∀ fuel, ch.length ≤ fuel →
    ∃ r, Page.get_effective_footer s fuel p = some r := by
  intro p ch hch
  induction hch with
  | stopNone q hq =>
    intro fuel hf
    obtain ⟨n, rfl⟩ : ∃ n, fuel = n + 1 := ⟨fuel - 1, by simp at hf; omega⟩
    cases hm : q.footer_id with
    | some fid =>
      by_cases h0 : fid = 0
      · exact ⟨.zero, by simp [Page.get_effective_footer, hm, h0]⟩
      · cases hg : s.footerGet fid with
        | some f =>
          exact ⟨.found f, by simp [Page.get_effective_footer, hm, h0, hg]⟩
        | none =>
          exact ⟨.nothing, by simp [Page.get_effective_footer, hm, h0, hg]⟩
    | none => exact ⟨.nothing, by simp [Page.get_effective_footer, hm, hq]⟩
  | stopZero q hq =>
    intro fuel hf
    obtain ⟨n, rfl⟩ : ∃ n, fuel = n + 1 := ⟨fuel - 1, by simp at hf; omega⟩
    cases hm : q.footer_id with
    | some fid =>
      by_cases h0 : fid = 0
      · exact ⟨.zero, by simp [Page.get_effective_footer, hm, h0]⟩
      · cases hg : s.footerGet fid with
        | some f =>
          exact ⟨.found f, by simp [Page.get_effective_footer, hm, h0, hg]⟩
        | none =>
          exact ⟨.nothing, by simp [Page.get_effective_footer, hm, h0, hg]⟩
    | none => exact ⟨.nothing, by simp [Page.get_effective_footer, hm, hq]⟩
  | stopMissing q pid hq hpid hg2 =>
    intro fuel hf
    obtain ⟨n, rfl⟩ : ∃ n, fuel = n + 1 := ⟨fuel - 1, by simp at hf; omega⟩
    cases hm : q.footer_id with
    | some fid =>
      by_cases h0 : fid = 0
      · exact ⟨.zero, by simp [Page.get_effective_footer, hm, h0]⟩
      · cases hg : s.footerGet fid with
        | some f =>
          exact ⟨.found f, by simp [Page.get_effective_footer, hm, h0, hg]⟩
        | none =>
          exact ⟨.nothing, by simp [Page.get_effective_footer, hm, h0, hg]⟩
    | none =>
      exact ⟨.nothing, by simp [Page.get_effective_footer, hm, hq, hpid, hg2]⟩
  | step q q2 pid ch hq hpid hg2 hch2 ih =>
    intro fuel hf
    obtain ⟨n, rfl⟩ : ∃ n, fuel = n + 1 := ⟨fuel - 1, by simp at hf; omega⟩
    cases hm : q.footer_id with
    | some fid =>
      by_cases h0 : fid = 0
      · exact ⟨.zero, by simp [Page.get_effective_footer, hm, h0]⟩
      · cases hg : s.footerGet fid with
        | some f =>
          exact ⟨.found f, by simp [Page.get_effective_footer, hm, h0, hg]⟩
        | none =>
          exact ⟨.nothing, by simp [Page.get_effective_footer, hm, h0, hg]⟩
    | none =>
      obtain ⟨r, hr⟩ := ih n (by simp at hf; omega)
      exact ⟨r, by simp [Page.get_effective_footer, hm, hq, hpid, hg2, hr]⟩

theorem get_effective_menu_no_override (s : Store) (pos : Position) :
    ∀ {p : Page} {ch : List Page}, AncestorChain s p ch →
    (∀ q ∈ ch, q.menuIdAt pos = none) →
    ∀ fuel, ch.length ≤ fuel →
    Page.get_effective_menu s pos fuel p = some .nothing := by
  intro p ch hch
  induction hch with
  | stopNone q hq =>
    intro hnull fuel hf
    obtain ⟨n, rfl⟩ : ∃ n, fuel = n + 1 := ⟨fuel - 1, by simp at hf; omega⟩
    simp [Page.get_effective_menu, hnull q (by simp), hq]
  | stopZero q hq =>
    intro hnull fuel hf
    obtain ⟨n, rfl⟩ : ∃ n, fuel = n + 1 := ⟨fuel - 1, by simp at hf; omega⟩
    simp [Page.get_effective_menu, hnull q (by simp), hq]
  | stopMissing q pid hq hpid hg2 =>
    intro hnull fuel hf
    obtain ⟨n, rfl⟩ : ∃ n, fuel = n + 1 := ⟨fuel - 1, by simp at hf; omega⟩
    simp [Page.get_effective_menu, hnull q (by simp), hq, hpid, hg2]
  | step q q2 pid ch hq hpid hg2 hch2 ih =>
    intro hnull fuel hf
    obtain ⟨n, rfl⟩ : ∃ n, fuel = n + 1 := ⟨fuel - 1, by simp at hf; omega⟩
    have hr := ih (fun x hx => hnull x (List.mem_cons_of_mem _ hx)) n
      (by simp at hf; omega)
    simp [Page.get_effective_menu, hnull q (by simp), hq, hpid, hg2, hr]

/-- A self-referential page with no own setting makes the menu walk run
out of any amount of fuel: the loop never finishes. -/
theorem get_effective_menu_loops (s : Store) (pos : Position) (q : Page)
    (h1 : q.parent_id = some q.id) (h0 : q.id ≠ 0)
    (hg : s.pageGet q.id = some q) (hm : q.menuIdAt pos = none) :
    ∀ fuel, Page.get_effective_menu s pos fuel q = none := by
  intro fuel
  induction fuel with
  | zero => rfl
  | succ n ih => simp [Page.get_effective_menu, hm, h1, h0, hg, ih]

theorem get_effective_footer_loops (s : Store) (q : Page)
    (h1 : q.parent_id = some q.id) (h0 : q.id ≠ 0)
    (hg : s.pageGet q.id = some q) (hm : q.footer_id = none) :
    ∀ fuel, Page.get_effective_footer s fuel q = none := by
  intro fuel
  induction fuel with
  | zero => rfl
  | succ n ih => simp [Page.get_effective_footer, hm, h1, h0, hg, ih]

/-! ### Ordering of materialized menu items -/

/-- "order ascending, ties broken by id ascending". -/
def MenuItemLex (a b : MenuItem) : Prop :=
  a.order < b.order ∨ (a.order = b.order ∧ a.id < b.id)

instance : DecidableRel MenuItemLex := fun a b =>
  decidable_of_iff (a.order < b.order ∨ (a.order = b.order ∧ a.id < b.id))
    Iff.rfl

theorem orderedInsert_lex (x : MenuItem) :
    ∀ (l : List MenuItem), List.Pairwise MenuItemLex l →
    (∀ y ∈ l, x.id < y.id) →
    List.Pairwise MenuItemLex
      (List.orderedInsert (fun a b => a.order ≤ b.order) x l) := by
  intro l
  induction l with
  | nil => intro _ _; simp [List.orderedInsert]
  | cons b bs ih =>
    intro hl hx
    rw [List.pairwise_cons] at hl
    by_cases hle : x.order ≤ b.order
    · rw [List.orderedInsert, if_pos hle]
      rw [List.pairwise_cons]
      refine ⟨?_, List.pairwise_cons.mpr hl⟩
      intro y hy
      rcases List.mem_cons.mp hy with rfl | hy
      · rcases lt_or_eq_of_le hle with hlt | heq
        · exact Or.inl hlt
        · exact Or.inr ⟨heq, hx y (List.mem_cons_self _ _)⟩
      · rcases hl.1 y hy with hlt | ⟨heq, _⟩
        · exact Or.inl (lt_of_le_of_lt hle hlt)
        · rcases lt_or_eq_of_le hle with hlt2 | heq2
          · exact Or.inl (heq ▸ hlt2)
          · exact Or.inr ⟨heq ▸ heq2, hx y (List.mem_cons_of_mem _ hy)⟩
    · rw [List.orderedInsert, if_neg hle]
      rw [List.pairwise_cons]
      constructor
      · intro y hy
        rw [List.mem_orderedInsert] at hy
        rcases hy with rfl | hy
        · exact Or.inl (not_le.mp hle)
        · exact hl.1 y hy
      · exact ih hl.2 (fun y hy => hx y (List.mem_cons_of_mem _ hy))

theorem insertionSort_lex :
    ∀ (l : List MenuItem),
    List.Pairwise (fun a b : MenuItem => a.id < b.id) l →
    List.Pairwise MenuItemLex
      (List.insertionSort (fun a b => a.order ≤ b.order) l) := by
  intro l
  induction l with
  | nil => intro _; simp [List.insertionSort]
  | cons a rest ih =>
    intro h
    rw [List.pairwise_cons] at h
    rw [List.insertionSort]
    exact orderedInsert_lex a _ (ih h.2)
      (fun y hy => h.1 y ((List.mem_insertionSort _).mp hy))

/-! ### Substring lemmas -/

theorem mem_of_listIsPrefix :
    ∀ (p l : List Char), listIsPrefix p l = true → ∀ c ∈ p, c ∈ l := by
  intro p
  induction p with
  | nil => intro l _ c hc; simp at hc
  | cons a ps ih =>
    intro l hp c hc
    cases l with
    | nil => simp [listIsPrefix] at hp
    | cons b bs =>
      simp only [listIsPrefix, Bool.and_eq_true, beq_iff_eq] at hp
      rcases List.mem_cons.mp hc with rfl | hc
      · simp [hp.1]
      · exact List.mem_cons_of_mem _ (ih bs hp.2 c hc)

theorem mem_of_listContainsSub :
    ∀ (l p : List Char), listContainsSub p l = true → ∀ c ∈ p, c ∈ l := by
  intro l
  induction l with
  | nil =>
    intro p hp c hc
    simp only [listContainsSub, List.isEmpty_iff] at hp
    subst hp; simp at hc
  | cons b bs ih =>
    intro p hp c hc
    simp only [listContainsSub, Bool.or_eq_true] at hp
    rcases hp with hp | hp
    · exact mem_of_listIsPrefix p _ hp c hc
    · exact List.mem_cons_of_mem _ (ih p hp c hc)

theorem listIsPrefix_append :
    ∀ (p q l : List Char), listIsPrefix (p ++ q) l = true →
    listIsPrefix p l = true := by
  intro p
  induction p with
  | nil => intro q l _; rfl
  | cons a ps ih =>
    intro q l hp
    cases l with
    | nil => simp [listIsPrefix] at hp
    | cons b bs =>
      simp only [List.cons_append, listIsPrefix, Bool.and_eq_true,
        beq_iff_eq] at hp
      simp only [listIsPrefix, Bool.and_eq_true, beq_iff_eq]
      exact ⟨hp.1, ih q bs hp.2⟩

theorem listContainsSub_append :
    ∀ (l p q : List Char), listContainsSub (p ++ q) l = true →
    listContainsSub p l = true := by
  intro l
  induction l with
  | nil =>
    intro p q hp
    simp only [listContainsSub, List.isEmpty_iff, List.append_eq_nil] at hp
    simp [listContainsSub, hp.1]
  | cons b bs ih =>
    intro p q hp
    simp only [listContainsSub, Bool.or_eq_true] at hp ⊢
    rcases hp with hp | hp
    · exact Or.inl (listIsPrefix_append p q _ hp)
    · exact Or.inr (ih p q hp)

theorem listContainsSub_singleton :
    ∀ (l : List Char) (c : Char), listContainsSub [c] l = true ↔ c ∈ l := by
  intro l c
  induction l with
  | nil => simp [listContainsSub]
  | cons b bs ih =>
    simp only [listContainsSub, listIsPrefix, Bool.or_eq_true,
      Bool.and_eq_true, beq_iff_eq, List.mem_cons, ih]
    constructor
    · rintro (⟨rfl, _⟩ | h)
      · exact Or.inl rfl
      · exact Or.inr h
    · rintro (rfl | h)
      · exact Or.inl ⟨rfl, trivial⟩
      · exact Or.inr h

/-- A value containing `data:image/svg` also contains `data:`. -/
theorem strContains_data_of_svg (v : String)
    (h : strContains v "data:image/svg" = true) :
    strContains v "data:" = true := by
  unfold strContains at h ⊢
  have hsplit : "data:image/svg".toList = "data:".toList ++ "image/svg".toList := by
    decide
  rw [hsplit] at h
  exact listContainsSub_append _ _ _ h

/-- A lowered value containing `@import` contains `@`. -/
theorem strContains_at_of_atImport (v : String)
    (h : strContains v "@import" = true) : strContains v "@" = true := by
  unfold strContains at h ⊢
  have : '@' ∈ v.toList :=
    mem_of_listContainsSub _ _ h '@' (by decide)
  exact (listContainsSub_singleton v.toList '@').mpr this

/-- `@` survives lowering, in both directions of containment. -/
theorem strContains_at_pyLower (v : String)
    (h : strContains v "@" = true) : strContains (pyLower v) "@" = true := by
  unfold strContains at h ⊢
  have hv : '@' ∈ v.toList := (listContainsSub_singleton v.toList '@').mp h
  have : '@' ∈ (pyLower v).toList := by
    show '@' ∈ (String.mk (v.toList.map Char.toLower)).toList
    have : Char.toLower '@' ∈ v.toList.map Char.toLower :=
      List.mem_map_of_mem _ hv
    simpa using this
  exact (listContainsSub_singleton _ '@').mpr this

theorem cssValueBlocked_eq_false (k v : String)
    (hb : cssValueBlocked k v = false) :
    strContains (pyLower v) "javascript:" = false ∧
    strContains (pyLower v) "expression" = false ∧
    strContains (pyLower v) "@import" = false ∧
    strContains v "@" = false ∧
    pyLower k ≠ "behavior" ∧
    strContains (pyLower v) "</style" = false ∧
    strContains (pyLower v) "<script" = false ∧
    ((k = "backgroundImage" ∨ k = "background") →
      strContains (pyLower v) "data:image/svg" = false) := by
  refine ⟨?_, ?_, ?_, ?_, ?_, ?_, ?_, ?_⟩
  · cases h : strContains (pyLower v) "javascript:" with
    | false => rfl
    | true => rw [cssValueBlocked] at hb; simp [h] at hb
  · cases h : strContains (pyLower v) "expression" with
    | false => rfl
    | true => rw [cssValueBlocked] at hb; simp [h] at hb
  · cases h : strContains (pyLower v) "@import" with
    | false => rfl
    | true => rw [cssValueBlocked] at hb; simp [h] at hb
  · cases h : strContains v "@" with
    | false => rfl
    | true => rw [cssValueBlocked] at hb; simp [h] at hb
  · intro hEq
    rw [cssValueBlocked] at hb; simp [hEq] at hb
  · cases h : strContains (pyLower v) "</style" with
    | false => rfl
    | true => rw [cssValueBlocked] at hb; simp [h] at hb
  · cases h : strContains (pyLower v) "<script" with
    | false => rfl
    | true => rw [cssValueBlocked] at hb; simp [h] at hb
  · intro hk
    cases hsvg : strContains (pyLower v) "data:image/svg" with
    | false => rfl
    | true =>
      have hdata := strContains_data_of_svg _ hsvg
      rcases hk with rfl | rfl <;>
        (rw [cssValueBlocked] at hb; simp [hsvg, hdata] at hb)

/-! ### Claim theorems -/

/-- C6: `sanitize_styles` keeps only entries whose key is on the fixed CSS
allow-list, and drops every entry whose value contains `javascript:`,
`expression`, `@import`, `</style`, `<script` or any `@` character, whose
key is the `behavior` property, or — for background-image keys — whose
value contains `data:image/svg`; in particular
`sanitize_styles({"color": "red", "behavior": "url(x.htc)"})` is
`{"color": "red"}`. -/
theorem sanitize_styles_allowlist_blocklist :
    (∀ (styles : List (String × Json)) (k v : String),
      (k, v) ∈ sanitize_css_properties styles →
      (k, Json.str v) ∈ styles ∧ k ∈ SAFE_CSS_PROPERTIES ∧
      strContains (pyLower v) "javascript:" = false ∧
      strContains (pyLower v) "expression" = false ∧
      strContains (pyLower v) "@import" = false ∧
      strContains v "@" = false ∧
      pyLower k ≠ "behavior" ∧
      strContains (pyLower v) "</style" = false ∧
      strContains (pyLower v) "<script" = false ∧
      ((k = "backgroundImage" ∨ k = "background") →
        strContains (pyLower v) "data:image/svg" = false)) ∧
    sanitize_css_properties
      [("color", Json.str "red"), ("behavior", Json.str "url(x.htc)")] =
      [("color", "red")] := by
  constructor
  · intro styles k v h
    rw [sanitize_css_properties, List.mem_filterMap] at h
    obtain ⟨⟨k0, j0⟩, hmem, hf⟩ := h
    dsimp only at hf
    by_cases hsafe : SAFE_CSS_PROPERTIES.contains k0 = true
    · rw [if_pos hsafe] at hf
      cases j0 with
      | str v0 =>
        dsimp only at hf
        by_cases hbv : cssValueBlocked k0 v0 = true
        · rw [if_pos hbv] at hf
          exact absurd hf (by simp)
        · rw [if_neg hbv] at hf
          simp only [Option.some.injEq, Prod.mk.injEq] at hf
          obtain ⟨rfl, rfl⟩ := hf
          have hfacts := cssValueBlocked_eq_false k0 v0
            (Bool.not_eq_true _ |>.mp hbv)
          exact ⟨hmem, List.elem_iff.mp hsafe, hfacts.1, hfacts.2.1,
            hfacts.2.2.1, hfacts.2.2.2.1, hfacts.2.2.2.2.1,
            hfacts.2.2.2.2.2.1, hfacts.2.2.2.2.2.2.1,
            hfacts.2.2.2.2.2.2.2⟩
      | null => exact absurd hf (by simp)
      | bool bb => exact absurd hf (by simp)
      | num n => exact absurd hf (by simp)
      | arr xs => exact absurd hf (by simp)
      | obj kvs => exact absurd hf (by simp)
    · rw [if_neg hsafe] at hf
      exact absurd hf (by simp)
  · rfl

/-- C6 witness: the general part applied to the singleton style map
`{"color": "red"}`. -/
theorem sanitize_styles_allowlist_blocklist_witness :
    ("color", Json.str "red") ∈ ([("color", Json.str "red")] :
      List (String × Json)) ∧
    "color" ∈ SAFE_CSS_PROPERTIES ∧
    strContains (pyLower "red") "javascript:" = false := by
  have h := sanitize_styles_allowlist_blocklist.1
    [("color", Json.str "red")] "color" "red" (by decide)
  exact ⟨h.1, h.2.1, h.2.2.1⟩

/-- C10: the CSS allow-list contains the key `custom`, and any entry
`("custom", v)` whose value avoids `javascript:`, `expression`, `@`,
`</style` and `<script` is preserved verbatim by `sanitize_styles`. -/
theorem custom_css_passes_sanitization :
    "custom" ∈ SAFE_CSS_PROPERTIES ∧
    (∀ (styles : List (String × Json)) (v : String),
      ("custom", Json.str v) ∈ styles →
      strContains (pyLower v) "javascript:" = false →
      strContains (pyLower v) "expression" = false →
      strContains (pyLower v) "@" = false →
      strContains (pyLower v) "</style" = false →
      strContains (pyLower v) "<script" = false →
      ("custom", v) ∈ sanitize_css_properties styles) := by
  constructor
  · decide
  · intro styles v hmem h1 h2 h3 h4 h5
    have hat : strContains v "@" = false := by
      cases h : strContains v "@" with
      | false => rfl
      | true => exact absurd (strContains_at_pyLower v h) (by simp [h3])
    have hatImport : strContains (pyLower v) "@import" = false := by
      cases h : strContains (pyLower v) "@import" with
      | false => rfl
      | true => exact absurd (strContains_at_of_atImport _ h) (by simp [h3])
    have hbeh : (pyLower "custom" == "behavior") = false := rfl
    have hbg : (("custom" : String) == "backgroundImage" ||
        ("custom" : String) == "background") = false := rfl
    have hblock : cssValueBlocked "custom" v = false := by
      rw [cssValueBlocked]
      simp [h1, h2, h4, h5, hat, hatImport, hbeh, hbg]
    rw [sanitize_css_properties, List.mem_filterMap]
    refine ⟨("custom", Json.str v), hmem, ?_⟩
    have hcontains : SAFE_CSS_PROPERTIES.contains "custom" = true := by decide
    dsimp only
    rw [if_pos hcontains, if_neg (by simp [hblock])]

/-- C10 witness: a literal CSS payload under the `custom` key passes. -/
theorem custom_css_passes_sanitization_witness :
    ("custom", "position:fixed;left:0") ∈
      sanitize_css_properties [("custom", Json.str "position:fixed;left:0")] :=
  custom_css_passes_sanitization.2
    [("custom", Json.str "position:fixed;left:0")] "position:fixed;left:0"
    (List.mem_singleton.mpr rfl)
    (by decide) (by decide) (by decide) (by decide) (by decide)

/-- C7 counterexample: on `"<script>alert(1)</script><b>ok</b>"` the
sanitizer strips the script *tags* but keeps the script's character data,
so `alert(1)` survives in the output — the script element is not dropped
"entirely, including its alert(1) text content". -/
theorem sanitize_html_keeps_script_text :
    sanitize_html_content "<script>alert(1)</script><b>ok</b>" =
      "alert(1)<b>ok</b>" ∧
    strContains (sanitize_html_content "<script>alert(1)</script><b>ok</b>")
      "alert(1)" = true := ⟨rfl, rfl⟩

/-- C7 amended: the output retains `<b>ok</b>`, contains no script tag any
more, but the script's text content `alert(1)` remains as plain text. -/
theorem sanitize_html_strips_script_tags :
    strContains (sanitize_html_content "<script>alert(1)</script><b>ok</b>")
      "<b>ok</b>" = true ∧
    strContains (sanitize_html_content "<script>alert(1)</script><b>ok</b>")
      "<script" = false ∧
    strContains (sanitize_html_content "<script>alert(1)</script><b>ok</b>")
      "alert(1)" = true := ⟨rfl, rfl, rfl⟩

/-- C2 counterexample: with a stored site-default top menu whose `content`
column holds the unparseable payload `"oops"`, resolution raises the
JSON-decode error to the caller instead of degrading — the `content`
parse in `get_page_menus_and_footer` is not wrapped in `try`. -/
theorem resolve_raises_on_malformed_content :
    jsonParse "oops" = none ∧
    MenuService.get_page_menus_and_footer c2Store c2Page c2Site none none 5 =
      some (.error .decodeError) := ⟨rfl, rfl⟩

/-- C2 amended: a malformed style map never raises — it degrades to the
empty map (and absent content degrades to the empty array) for menus and
footers alike; only a malformed *content* payload raises. -/
theorem resolve_degrades_malformed_styles (s : Store) (m m2 : Menu)
    (f : Footer) (st1 st2 st3 : String)
    (hm1 : m.menu_styles = some st1) (hm2 : jsonParse st1 = none)
    (hm3 : m.content = none)
    (hf1 : f.footer_styles = some st2) (hf2 : jsonParse st2 = none)
    (hf3 : f.content = none)
    (hc1 : m2.content = some st3) (hc2 : st3.isEmpty = false)
    (hc3 : jsonParse st3 = none) :
    MenuService.materializeMenu s m =
      .ok ⟨some m, s.menuItemsFor m.id, Json.arr [], Json.obj []⟩ ∧
    MenuService.materializeFooter s f =
      .ok ⟨some f, Json.arr [], Json.obj []⟩ ∧
    MenuService.materializeMenu s m2 = .error .decodeError := by
  have hstyles : parseStylesField m.menu_styles = Json.obj [] := by
    rw [hm1, parseStylesField]
    by_cases hE : st1.isEmpty = true
    · rw [if_pos hE]
    · rw [if_neg hE, hm2]
  have hstylesF : parseStylesField f.footer_styles = Json.obj [] := by
    rw [hf1, parseStylesField]
    by_cases hE : st2.isEmpty = true
    · rw [if_pos hE]
    · rw [if_neg hE, hf2]
  refine ⟨?_, ?_, ?_⟩
  · rw [MenuService.materializeMenu, hstyles, hm3]
    rfl
  · rw [MenuService.materializeFooter, hstylesF, hf3]
    rfl
  · rw [MenuService.materializeMenu, hc1]
    simp only [parseContentField, hc2, Bool.false_eq_true, if_false, hc3]

/-- C2 amended witness: concrete menu and footer rows with `oops` style
maps, plus one menu row with `oops` content. -/
theorem resolve_degrades_malformed_styles_witness :
    MenuService.materializeMenu ⟨[], [], [], [], []⟩ c2StyleMenu =
      .ok ⟨some c2StyleMenu, [], Json.arr [], Json.obj []⟩ ∧
    MenuService.materializeFooter ⟨[], [], [], [], []⟩ c2StyleFooter =
      .ok ⟨some c2StyleFooter, Json.arr [], Json.obj []⟩ ∧
    MenuService.materializeMenu ⟨[], [], [], [], []⟩ c2BadMenu =
      .error .decodeError := by
  have h := resolve_degrades_malformed_styles ⟨[], [], [], [], []⟩
    c2StyleMenu c2BadMenu c2StyleFooter "oops" "oops" "oops"
    rfl rfl rfl rfl rfl rfl rfl rfl rfl
  exact h

/-- C1: when the nearest own-or-ancestor override at position `pos` is the
suppression sentinel (the walk returns `0`) and no viewer-mapping menu
applies there, resolution yields no menu at `pos` — the whole position
slice stays at its initial empty value, skipping the site default — and a
child page with no own override at `pos` inherits the same suppression
through the walk. -/
theorem resolve_suppression_skips_default_and_inherits
    (s : Store) (page child : Page) (site : Site) (bn : Option String)
    (role : Option Int) (fuel : Nat) (pos : Position) (b : Bundle)
    (hz : Page.get_effective_menu s pos fuel page = some .zero)
    (hum : MenuService.viewerMenu s
      (MenuService.userMapping s site bn role) pos = none)
    (hb : MenuService.get_page_menus_and_footer s page site bn role fuel =
      some (.ok b))
    (hc1 : child.menuIdAt pos = none) (hc2 : child.parent_id = some page.id)
    (hc3 : page.id ≠ 0) (hc4 : s.pageGet page.id = some page) :
    (b.atPos pos).menu = none ∧ b.atPos pos = PosResult.empty ∧
    Page.get_effective_menu s pos (fuel + 1) child = some .zero := by
  have hrp := resolve_ok_pos s page site bn role fuel b hb pos
  simp only [MenuService.resolvePosition, hum, hz, Option.some.injEq,
    Except.ok.injEq] at hrp
  refine ⟨?_, hrp.symm, ?_⟩
  · rw [← hrp]; rfl
  · exact get_effective_menu_child_step s pos child page fuel hc1 hc2 hc3
      hc4 hz

/-- C1 witness: a parent page storing the `0` sentinel at `top`, with an
active site-default top menu present and a child with no own override. -/
theorem resolve_suppression_witness :
    ((⟨PosResult.empty, PosResult.empty, PosResult.empty,
        FooterResult.empty⟩ : Bundle).atPos .top).menu = none ∧
    (⟨PosResult.empty, PosResult.empty, PosResult.empty,
        FooterResult.empty⟩ : Bundle).atPos .top = PosResult.empty ∧
    Page.get_effective_menu c1Store .top 2 c1Child = some .zero :=
  resolve_suppression_skips_default_and_inherits c1Store c1Parent c1Child
    c1Site none none 1 .top
    ⟨PosResult.empty, PosResult.empty, PosResult.empty, FooterResult.empty⟩
    rfl rfl rfl rfl rfl (by decide) rfl

/-- C4: with no own or ancestor override at `pos` anywhere along the
(acyclic) parent chain and no viewer-mapping menu applying, the resolved
menu at `pos` is exactly the site's first stored `Menu` with matching
position and `is_active = true` — or none when no such menu exists. -/
theorem resolve_site_default_fallback (s : Store) (page : Page) (site : Site)
    (bn : Option String) (role : Option Int) (fuel : Nat) (pos : Position)
    (ch : List Page) (b : Bundle)
    (hch : AncestorChain s page ch)
    (hnull : ∀ q ∈ ch, q.menuIdAt pos = none)
    (hfuel : ch.length ≤ fuel)
    (hum : MenuService.viewerMenu s
      (MenuService.userMapping s site bn role) pos = none)
    (hb : MenuService.get_page_menus_and_footer s page site bn role fuel =
      some (.ok b)) :
    (b.atPos pos).menu = s.menus.find? (fun m =>
      m.site_id == site.id && m.is_active && m.position == pos.str) := by
  have hw := get_effective_menu_no_override s pos hch hnull fuel hfuel
  have hrp := resolve_ok_pos s page site bn role fuel b hb pos
  cases hdef : s.menus.find? (fun m =>
      m.site_id == site.id && m.is_active && m.position == pos.str) with
  | none =>
    simp only [MenuService.resolvePosition, hum, hw, hdef,
      Option.some.injEq, Except.ok.injEq] at hrp
    rw [← hrp]; rfl
  | some m =>
    simp only [MenuService.resolvePosition, hum, hw, hdef,
      Option.some.injEq] at hrp
    obtain ⟨h1, _, _⟩ := materializeMenu_ok_menu s m _ hrp
    exact h1

/-- C4 witness: a two-page chain with no overrides resolves `top` to the
stored active top menu. -/
theorem resolve_site_default_fallback_witness :
    ((⟨⟨some c4Menu, [], Json.arr [], Json.obj []⟩, PosResult.empty,
        PosResult.empty, FooterResult.empty⟩ : Bundle).atPos .top).menu =
      c4Store.menus.find? (fun m =>
        m.site_id == c4Site.id && m.is_active &&
        m.position == Position.str .top) :=
  resolve_site_default_fallback c4Store c4Leaf c4Site none none 2 .top
    [c4Leaf, c4Root]
    ⟨⟨some c4Menu, [], Json.arr [], Json.obj []⟩, PosResult.empty,
      PosResult.empty, FooterResult.empty⟩
    (AncestorChain.step c4Leaf c4Root 1 [c4Root] rfl (by decide) rfl
      (AncestorChain.stopNone c4Root rfl))
    (by decide) (by decide) rfl rfl

/-- C3: when the viewer's `builder_name` matches a mapping row `A`
(case-insensitively, via the site-scoped builder lookup), resolution uses
row `A` exclusively even if the viewer's role matches another row: the
lookup returns `A` without consulting role rows; every position where `A`
holds a non-null id resolves to that menu over any page or ancestor
override; every position `A` leaves null falls through to the ordinary
page/ancestor/site-default resolution, identical to having no mapping at
all; and likewise for the footer. -/
theorem builder_mapping_exclusive (s : Store) (page : Page) (site : Site)
    (A : BuilderMenuMapping) (bn : String) (r : Int) (fuel : Nat)
    (hbn : bn.isEmpty = false)
    (hA : s.mappings.find? (fun mp =>
      mp.site_id == site.id &&
      (match mp.builder_name with
       | some x => pyLower x == pyLower bn
       | none => false)) = some A) :
    MenuService.userMapping s site (some bn) (some r) = some A ∧
    (∀ (pos : Position) (mid : Nat) (m : Menu) (b : Bundle),
      A.menuIdAt pos = some mid → mid ≠ 0 → s.menuGet mid = some m →
      MenuService.get_page_menus_and_footer s page site (some bn) (some r)
        fuel = some (.ok b) →
      (b.atPos pos).menu = some m) ∧
    (∀ pos : Position, A.menuIdAt pos = none →
      MenuService.resolvePosition s page site (some A) pos fuel =
        MenuService.resolvePosition s page site none pos fuel) ∧
    (∀ (fid : Nat) (f : Footer) (b : Bundle),
      A.footer_id = some fid → fid ≠ 0 → s.footerGet fid = some f →
      MenuService.get_page_menus_and_footer s page site (some bn) (some r)
        fuel = some (.ok b) →
      b.footer.footer = some f) ∧
    (A.footer_id = none →
      MenuService.resolveFooter s page site (some A) fuel =
        MenuService.resolveFooter s page site none fuel) := by
  have hu : MenuService.userMapping s site (some bn) (some r) = some A := by
    rw [MenuService.userMapping, if_pos (by simp [strTruthy, hbn])]
    rw [BuilderMenuMapping.get_for_user]
    simp [hbn, hA]
  refine ⟨hu, ?_, ?_, ?_, ?_⟩
  · intro pos mid m b hmid h0 hget hb
    have hrp := resolve_ok_pos s page site (some bn) (some r) fuel b hb pos
    rw [hu] at hrp
    simp only [MenuService.resolvePosition, MenuService.viewerMenu, hmid,
      h0, ne_eq, not_false_eq_true, if_true, ite_true, hget,
      Option.some.injEq] at hrp
    obtain ⟨h1, _, _⟩ := materializeMenu_ok_menu s m _ hrp
    exact h1
  · intro pos hnone
    have hv : MenuService.viewerMenu s (some A) pos = none := by
      simp [MenuService.viewerMenu, hnone]
    have hv2 : MenuService.viewerMenu s none pos = none := rfl
    simp only [MenuService.resolvePosition, hv, hv2]
  · intro fid f b hfid h0 hget hb
    have hrf := resolve_ok_footer s page site (some bn) (some r) fuel b hb
    rw [hu] at hrf
    simp only [MenuService.resolveFooter, MenuService.viewerFooter, hfid,
      h0, ne_eq, not_false_eq_true, if_true, ite_true, hget,
      Option.some.injEq] at hrf
    obtain ⟨h1, _⟩ := materializeFooter_ok_footer s f _ hrf
    exact h1
  · intro hnone
    have hv : MenuService.viewerFooter s (some A) = none := by
      simp [MenuService.viewerFooter, hnone]
    have hv2 : MenuService.viewerFooter s none = none := rfl
    simp only [MenuService.resolveFooter, hv, hv2]

/-- C3 witness: viewer `("nvr inc", role 3)` hits builder row A (menu 20)
although role row B (menu 30) also matches; A's null `left` slot falls
through to mapless resolution. -/
theorem builder_mapping_exclusive_witness :
    MenuService.userMapping c3Store c3Site (some "nvr inc") (some 3) =
      some c3RowA ∧
    ((⟨⟨some c3MenuA, [], Json.arr [], Json.obj []⟩, PosResult.empty,
        PosResult.empty,
        ⟨some c3FooterPage, Json.arr [], Json.obj []⟩⟩ : Bundle).atPos
      .top).menu = some c3MenuA ∧
    MenuService.resolvePosition c3Store c3Page c3Site (some c3RowA) .left 1 =
      MenuService.resolvePosition c3Store c3Page c3Site none .left 1 := by
  have h := builder_mapping_exclusive c3Store c3Page c3Site c3RowA
    "nvr inc" 3 1 rfl rfl
  exact ⟨h.1, h.2.1 .top 20 c3MenuA
    ⟨⟨some c3MenuA, [], Json.arr [], Json.obj []⟩, PosResult.empty,
      PosResult.empty, ⟨some c3FooterPage, Json.arr [], Json.obj []⟩⟩
    rfl (by decide) rfl rfl, h.2.2.1 .left rfl⟩

/-- C5: the materialized item list of a menu is exactly the stored
`MenuItem` rows of that menu (a permutation of the filter), sorted by the
integer `order` field ascending with ties broken by `id` ascending —
under the row-store model in which stored rows are in id order and
`ORDER BY` is a stable sort. -/
theorem menu_items_sorted_by_order_then_id (s : Store) (mid : Nat)
    (h : List.Pairwise (fun a b : MenuItem => a.id < b.id) s.menu_items) :
    (s.menuItemsFor mid).Perm
      (s.menu_items.filter (fun it => it.menu_id == mid)) ∧
    List.Pairwise MenuItemLex (s.menuItemsFor mid) := by
  constructor
  · exact List.perm_insertionSort _ _
  · exact insertionSort_lex _ (h.filter _)

/-- C5 witness: four stored items (two tied on `order = 1`) for menu 10. -/
theorem menu_items_sorted_witness :
    (c5Store.menuItemsFor 10).Perm
      (c5Store.menu_items.filter (fun it => it.menu_id == 10)) ∧
    List.Pairwise MenuItemLex (c5Store.menuItemsFor 10) :=
  menu_items_sorted_by_order_then_id c5Store 10 (by decide)

/-- C8: along a well-formed (acyclic, store-backed) parent chain both
ancestor walks finish within chain-length steps; a self-referential page
with no override defeats every fuel bound — the loop never terminates,
there being no cycle detection. -/
theorem ancestor_walk_termination (s : Store) (pos : Position) (p : Page)
    (ch : List Page) (q : Page)
    (hch : AncestorChain s p ch)
    (hq1 : q.parent_id = some q.id) (hq0 : q.id ≠ 0)
    (hqs : s.pageGet q.id = some q) (hqm : q.menuIdAt pos = none)
    (hqf : q.footer_id = none) :
    (∃ r, Page.get_effective_menu s pos ch.length p = some r) ∧
    (∃ r, Page.get_effective_footer s ch.length p = some r) ∧
    (∀ fuel, Page.get_effective_menu s pos fuel q = none) ∧
    (∀ fuel, Page.get_effective_footer s fuel q = none) :=
  ⟨get_effective_menu_terminates s pos hch _ le_rfl,
   get_effective_footer_terminates s hch _ le_rfl,
   get_effective_menu_loops s pos q hq1 hq0 hqs hqm,
   get_effective_footer_loops s q hq1 hq0 hqs hqf⟩

/-- C8 witness: a two-page chain terminates; the stored self-loop page
exhausts fuel 500 (and, by the theorem, any fuel). -/
theorem ancestor_walk_termination_witness :
    Page.get_effective_menu c8Store .top 500 c8Loop = none ∧
    Page.get_effective_footer c8Store 500 c8Loop = none ∧
    Page.get_effective_menu c8Store .top 2 c8Mid = some .nothing := by
  have h := ancestor_walk_termination c8Store .top c8Mid [c8Mid, c8Root]
    c8Loop
    (AncestorChain.step c8Mid c8Root 1 [c8Root] rfl (by decide) rfl
      (AncestorChain.stopNone c8Root rfl))
    rfl (by decide) rfl rfl rfl
  exact ⟨h.2.2.1 500, h.2.2.2 500, rfl⟩

/-- C9: resolution, with every store access state-threaded, returns the
store unchanged (it performs only reads); hence a second identical call
against the resulting store returns the identical bundle. -/
theorem resolution_read_only_idempotent (s : Store) (page : Page)
    (site : Site) (bn : Option String) (role : Option Int) (fuel : Nat) :
    (MenuService.get_page_menus_and_footerSt page site bn role fuel s).2 =
      s ∧
    (MenuService.get_page_menus_and_footerSt page site bn role fuel
      ((MenuService.get_page_menus_and_footerSt page site bn role fuel
        s).2)).1 =
      (MenuService.get_page_menus_and_footerSt page site bn role fuel s).1 := by
  constructor
  · rw [get_page_menus_and_footerSt_eq]
  · simp [get_page_menus_and_footerSt_eq]
